import Mathlib

/-!
Shallow embedding of the quotactl dispatcher of fs/quota/quota.c: the
record translators, the permission check, the per-command helpers, the
dispatcher do_quotactl, the broadcast sync and the compatibility shim,
together with theorems settling the specified properties.

Modelling conventions: machine integers are Nat (unsigned fields) or Int
(return codes; the source returns 0 on success and a negated errno on
failure).  Side effects that the properties talk about (the security hook,
calls into the filesystem quota capability set, writes to the user buffer)
are recorded in an event trace returned next to the result.  Mutexes and
reference counting are not modelled (single-caller model).  The user
address space is modelled by a UserBuf record holding the value the buffer
decodes to under each structure layout, plus fault flags for the copy
primitives.
-/

namespace Quotactl

/-- Errno values used by the source (the code returns their negations). -/
def EPERM : Int := 1
def ESRCH : Int := 3
def EFAULT : Int := 14
def ENODEV : Int := 19
def EINVAL : Int := 22
def EROFS : Int := 30
def ENOSYS : Int := 38

/-- Modelled from the spec: the opcode constants of the quota UAPI headers
(linux/quota.h, linux/dqblk_xfs.h), which are referenced by quota.c but are
not under src/.  Values are the standard ones; the claims depend only on
the opcodes being distinct and on the XQM family test below. -/
def SUBCMDSHIFT : Nat := 8
def SUBCMDMASK : Nat := 0x00ff
def Q_SYNC : Nat := 0x800001
def Q_QUOTAON : Nat := 0x800002
def Q_QUOTAOFF : Nat := 0x800003
def Q_GETFMT : Nat := 0x800004
def Q_GETINFO : Nat := 0x800005
def Q_SETINFO : Nat := 0x800006
def Q_GETQUOTA : Nat := 0x800007
def Q_SETQUOTA : Nat := 0x800008
def Q_XQUOTAON : Nat := 0x5801
def Q_XQUOTAOFF : Nat := 0x5802
def Q_XGETQUOTA : Nat := 0x5803
def Q_XSETQLIM : Nat := 0x5804
def Q_XGETQSTAT : Nat := 0x5805
def Q_XQUOTARM : Nat := 0x5806
def Q_XQUOTASYNC : Nat := 0x5807
def Q_XGETQSTATV : Nat := 0x5808

/-- XQM_COMMAND(x): the command belongs to the XFS ("extended") family when
its high command byte is the character X (0x58). -/
def XQM_COMMAND (cmd : Nat) : Bool := cmd &&& 0xff00 == 0x5800

/-- Modelled from the spec: the class-count bounds of the quota headers
(not under src/): the basic family supports user and group, the XQM family
additionally the project class. -/
def MAXQUOTAS : Nat := 2
def XQM_MAXQUOTAS : Nat := 3
def USRQUOTA : Nat := 0
def GRPQUOTA : Nat := 1

/-- Modelled from the spec: the basic validity bitmask constants QIF_* of
the quota UAPI header (not under src/): one bit each for block limits,
space usage, inode limits, inode usage and the two grace timers. -/
def QIF_BLIMITS : Nat := 1
def QIF_SPACE : Nat := 2
def QIF_ILIMITS : Nat := 4
def QIF_INODES : Nat := 8
def QIF_BTIME : Nat := 16
def QIF_ITIME : Nat := 32
def QIF_LIMITS : Nat := QIF_BLIMITS ||| QIF_ILIMITS
def QIF_USAGE : Nat := QIF_SPACE ||| QIF_INODES
def QIF_ALL : Nat := 63

/-- Modelled from the spec: the extended field-mask constants FS_DQ_* of
the XFS quota header (not under src/): a disjoint bit-per-field encoding. -/
def FS_DQ_ISOFT : Nat := 1
def FS_DQ_IHARD : Nat := 2
def FS_DQ_BSOFT : Nat := 4
def FS_DQ_BHARD : Nat := 8
def FS_DQ_BCOUNT : Nat := 16
def FS_DQ_ICOUNT : Nat := 32
def FS_DQ_BTIMER : Nat := 64
def FS_DQ_ITIMER : Nat := 128

/-- Modelled from the spec: the info validity bits IIF_* (not under src/). -/
def IIF_BGRACE : Nat := 1
def IIF_IGRACE : Nat := 2
def IIF_FLAGS : Nat := 4

/-- The only recognized version tag of the versioned extended-state call. -/
def FS_QSTATV_VERSION1 : Nat := 1

/-- Modelled from the spec: the DQF_INFO_DIRTY flag bit (not under src/);
only its distinctness matters here. -/
def DQF_INFO_DIRTY : Nat := 2 ^ 16

/-- Modelled from the spec: the legacy command words of the compatibility
shim (quotacompat header, not under src/).  The dispatcher routes words in
[0x0100, 0x3000) to the shim; claims depend only on the words being
distinct values in that range. -/
def QC_QUOTAON : Nat := 0x0100
def QC_QUOTAOFF : Nat := 0x0200
def QC_GETQUOTA : Nat := 0x0300
def QC_SETQUOTA : Nat := 0x0400
def QC_SETUSE : Nat := 0x0500
def QC_SYNC : Nat := 0x0600
def QC_SETQLIM : Nat := 0x0700
def QC_GETSTATS : Nat := 0x0800
def QC_GETINFO : Nat := 0x0900
def QC_SETINFO : Nat := 0x0A00
def QC_SETGRACE : Nat := 0x0B00
def QC_SETFLAGS : Nat := 0x0C00

/-- The caller-facing basic quota record (struct if_dqblk). -/
structure IfDqblk where
  dqb_bhardlimit : Nat
  dqb_bsoftlimit : Nat
  dqb_curspace : Nat
  dqb_ihardlimit : Nat
  dqb_isoftlimit : Nat
  dqb_curinodes : Nat
  dqb_btime : Nat
  dqb_itime : Nat
  dqb_valid : Nat
deriving DecidableEq

/-- The filesystem-native extended quota record (struct fs_disk_quota);
only the fields the translator touches are modelled. -/
structure FsDiskQuota where
  d_blk_hardlimit : Nat
  d_blk_softlimit : Nat
  d_bcount : Nat
  d_ino_hardlimit : Nat
  d_ino_softlimit : Nat
  d_icount : Nat
  d_btimer : Nat
  d_itimer : Nat
  d_fieldmask : Nat
deriving DecidableEq

/-- struct if_dqinfo. -/
structure IfDqinfo where
  dqi_bgrace : Nat
  dqi_igrace : Nat
  dqi_flags : Nat
  dqi_valid : Nat
deriving DecidableEq

/-- Modelled from the spec: the legacy fixed-width record struct
compat_dqblk of the compatibility shim (header not under src/). -/
structure CompatDqblk where
  dqb_ihardlimit : Nat
  dqb_isoftlimit : Nat
  dqb_curinodes : Nat
  dqb_bhardlimit : Nat
  dqb_bsoftlimit : Nat
  dqb_curspace : Nat
  dqb_btime : Nat
  dqb_itime : Nat
deriving DecidableEq

/-- Modelled from the spec: the legacy struct compat_dqinfo (header not
under src/). -/
structure CompatDqinfo where
  dqi_bgrace : Nat
  dqi_igrace : Nat
  dqi_flags : Nat
deriving DecidableEq

/-- The caller identity: effective uid, effective group memberships, and
whether the caller holds CAP_SYS_ADMIN.  Identity resolution against the
user namespace is modelled as the identity mapping. -/
structure Cred where
  euid : Nat
  egroups : List Nat
  capSysAdmin : Bool

/-- The external collaborators: the security-policy hook
security_quotactl(cmd, type, id) (0 grants, a negative value denies) and
the validity predicate of make_kqid for a (type, id) pair. -/
structure Env where
  cred : Cred
  sec : Nat → Nat → Nat → Int
  qid_valid : Nat → Nat → Bool

/-- The user buffer passed as addr: its decodings under each structure
layout the source casts it to, plus fault flags for copy_from_user and
copy_to_user. -/
structure UserBuf where
  faultOnRead : Bool
  faultOnWrite : Bool
  udqblk : IfDqblk
  udqinfo : IfDqinfo
  ufsdq : FsDiskQuota
  uflags : Nat
  uversion : Nat
  ucdqblk : CompatDqblk
  ucdqinfo : CompatDqinfo

/-- The quota capability set (struct quotactl_ops): a present operation is
some function returning the underlying result. -/
structure QCop where
  quota_on : Option (Nat → Nat → Int)
  quota_on_meta : Option (Nat → Nat → Int)
  quota_off : Option (Nat → Int)
  get_info : Option (Nat → Int × IfDqinfo)
  set_info : Option (Nat → IfDqinfo → Int)
  get_dqblk : Option (Nat → Nat → Int × FsDiskQuota)
  set_dqblk : Option (Nat → Nat → FsDiskQuota → Int)
  quota_sync : Option (Nat → Int)
  set_xstate : Option (Nat → Nat → Int)
  get_xstate : Option Int
  get_xstatev : Option (Nat → Int)
  rm_xquota : Option (Nat → Int)

/-- A mounted filesystem (struct super_block), restricted to what the
dispatcher reads. -/
structure SB where
  qcop : Option QCop
  rdonly : Bool
  has_rm_xquota : Bool
  quota_active : Nat → Bool
  fmt_id : Nat → Nat

/-- Names of the capability-set operations, for the event trace. -/
inductive CapName where
  | quotaOn
  | quotaOnMeta
  | quotaOff
  | getInfo
  | setInfo
  | getDqblk
  | setDqblk
  | quotaSyncOp
  | setXstate
  | getXstate
  | getXstatev
  | rmXquota
deriving DecidableEq

/-- Observable events: a consultation of the security hook, a call into
the capability set of the resolved target, a broadcast sync call on the
superblock at position i of the mount list, and a write to the user
buffer. -/
inductive Ev where
  | sec (cmd ty id : Nat)
  | cap (c : CapName)
  | syncCap (i ty : Nat)
  | uwrite
deriving DecidableEq

/-- copy_to_if_dqblk: extended record to basic record; the validity mask is
forced to QIF_ALL. -/
def copy_to_if_dqblk (src : FsDiskQuota) : IfDqblk :=
  { dqb_bhardlimit := src.d_blk_hardlimit,
    dqb_bsoftlimit := src.d_blk_softlimit,
    dqb_curspace := src.d_bcount,
    dqb_ihardlimit := src.d_ino_hardlimit,
    dqb_isoftlimit := src.d_ino_softlimit,
    dqb_curinodes := src.d_icount,
    dqb_btime := src.d_btimer,
    dqb_itime := src.d_itimer,
    dqb_valid := QIF_ALL }

/-- copy_from_if_dqblk: basic record to extended record; the field mask is
accumulated from the basic validity bits exactly as the source does. -/
def copy_from_if_dqblk (src : IfDqblk) : FsDiskQuota :=
  let m0 : Nat := 0
  let m1 := if src.dqb_valid &&& QIF_BLIMITS ≠ 0 then m0 ||| (FS_DQ_BSOFT ||| FS_DQ_BHARD) else m0
  let m2 := if src.dqb_valid &&& QIF_SPACE ≠ 0 then m1 ||| FS_DQ_BCOUNT else m1
  let m3 := if src.dqb_valid &&& QIF_ILIMITS ≠ 0 then m2 ||| (FS_DQ_ISOFT ||| FS_DQ_IHARD) else m2
  let m4 := if src.dqb_valid &&& QIF_INODES ≠ 0 then m3 ||| FS_DQ_ICOUNT else m3
  let m5 := if src.dqb_valid &&& QIF_BTIME ≠ 0 then m4 ||| FS_DQ_BTIMER else m4
  let m6 := if src.dqb_valid &&& QIF_ITIME ≠ 0 then m5 ||| FS_DQ_ITIMER else m5
  { d_blk_hardlimit := src.dqb_bhardlimit,
    d_blk_softlimit := src.dqb_bsoftlimit,
    d_bcount := src.dqb_curspace,
    d_ino_hardlimit := src.dqb_ihardlimit,
    d_ino_softlimit := src.dqb_isoftlimit,
    d_icount := src.dqb_curinodes,
    d_btimer := src.dqb_btime,
    d_itimer := src.dqb_itime,
    d_fieldmask := m6 }

/-- The commands of the first switch group of check_quotactl_permission:
no special privileges required. -/
def unprivileged_cmd (cmds : Nat) : Bool :=
  cmds == Q_GETFMT || cmds == Q_SYNC || cmds == Q_GETINFO ||
  cmds == Q_XGETQSTAT || cmds == Q_XGETQSTATV || cmds == Q_XQUOTASYNC

/-- The self-service test of check_quotactl_permission: the queried
identity is the callers own effective uid (user class) or one of its
effective groups (group class). -/
def selfservice (env : Env) (ty id : Nat) : Bool :=
  (ty == USRQUOTA && id == env.cred.euid) ||
  (ty == GRPQUOTA && env.cred.egroups.contains id)

/-- check_quotactl_permission: the switch with fallthrough of the source,
ending in the security hook; a caller failing the capability test is
denied without the hook being reached. -/
def check_quotactl_permission (env : Env) (ty cmds id : Nat) : Int × List Ev :=
  if unprivileged_cmd cmds then
    (env.sec cmds ty id, [Ev.sec cmds ty id])
  else if (cmds == Q_GETQUOTA || cmds == Q_XGETQUOTA) && selfservice env ty id then
    (env.sec cmds ty id, [Ev.sec cmds ty id])
  else if env.cred.capSysAdmin then
    (env.sec cmds ty id, [Ev.sec cmds ty id])
  else (-EPERM, [])

/-- Specification-side characterization (not used by the embedding): the
built-in privilege rule grants when the command is unprivileged, when the
get-record self-service exception applies, or when the caller holds the
administration capability. -/
def builtinGrants (env : Env) (ty cmds id : Nat) : Bool :=
  unprivileged_cmd cmds ||
  ((cmds == Q_GETQUOTA || cmds == Q_XGETQUOTA) && selfservice env ty id) ||
  env.cred.capSysAdmin

/-- quota_quotaon: prefer the metadata-based enable (ignoring the path
argument), fall back to the path-based enable, surfacing a path resolution
failure only then. -/
def quota_quotaon (q : QCop) (ty id : Nat) (upath : Except Int Unit) : Int × List Ev :=
  if q.quota_on.isNone && q.quota_on_meta.isNone then (-ENOSYS, [])
  else
    match q.quota_on_meta with
    | some f => (f ty id, [Ev.cap CapName.quotaOnMeta])
    | none =>
      match upath with
      | Except.error e => (e, [])
      | Except.ok _ =>
        match q.quota_on with
        | some g => (g ty id, [Ev.cap CapName.quotaOn])
        | none => (-ENOSYS, [])

/-- quota_getfmt: requires an active quota of the class, then writes the
format id to the user buffer. -/
def quota_getfmt (sb : SB) (ty : Nat) (buf : UserBuf) : Int × List Ev :=
  if sb.quota_active ty then
    (if buf.faultOnWrite then -EFAULT else 0, [Ev.uwrite])
  else (-ESRCH, [])

def quota_getinfo (q : QCop) (ty : Nat) (buf : UserBuf) : Int × List Ev :=
  match q.get_info with
  | none => (-ENOSYS, [])
  | some f =>
    let r := f ty
    if r.1 = 0 then
      (if buf.faultOnWrite then -EFAULT else 0, [Ev.cap CapName.getInfo, Ev.uwrite])
    else (r.1, [Ev.cap CapName.getInfo])

def quota_setinfo (q : QCop) (ty : Nat) (buf : UserBuf) : Int × List Ev :=
  if buf.faultOnRead then (-EFAULT, [])
  else
    match q.set_info with
    | none => (-ENOSYS, [])
    | some f => (f ty buf.udqinfo, [Ev.cap CapName.setInfo])

def quota_getquota (env : Env) (q : QCop) (ty id : Nat) (buf : UserBuf) : Int × List Ev :=
  match q.get_dqblk with
  | none => (-ENOSYS, [])
  | some f =>
    if ¬ env.qid_valid ty id then (-EINVAL, [])
    else
      let r := f ty id
      if r.1 ≠ 0 then (r.1, [Ev.cap CapName.getDqblk])
      else
        (if buf.faultOnWrite then -EFAULT else 0, [Ev.cap CapName.getDqblk, Ev.uwrite])

def quota_setquota (env : Env) (q : QCop) (ty id : Nat) (buf : UserBuf) : Int × List Ev :=
  if buf.faultOnRead then (-EFAULT, [])
  else
    match q.set_dqblk with
    | none => (-ENOSYS, [])
    | some f =>
      if ¬ env.qid_valid ty id then (-EINVAL, [])
      else (f ty id (copy_from_if_dqblk buf.udqblk), [Ev.cap CapName.setDqblk])

def quota_setxstate (q : QCop) (cmds : Nat) (buf : UserBuf) : Int × List Ev :=
  if buf.faultOnRead then (-EFAULT, [])
  else
    match q.set_xstate with
    | none => (-ENOSYS, [])
    | some f => (f buf.uflags cmds, [Ev.cap CapName.setXstate])

def quota_getxstate (q : QCop) (buf : UserBuf) : Int × List Ev :=
  match q.get_xstate with
  | none => (-ENOSYS, [])
  | some r =>
    if r = 0 then
      (if buf.faultOnWrite then -EFAULT else 0, [Ev.cap CapName.getXstate, Ev.uwrite])
    else (r, [Ev.cap CapName.getXstate])

/-- quota_getxstatev: probe the version byte from the user buffer, reject
an unrecognized version with EINVAL before calling the capability, and
write the output only after a successful capability call. -/
def quota_getxstatev (q : QCop) (buf : UserBuf) : Int × List Ev :=
  match q.get_xstatev with
  | none => (-ENOSYS, [])
  | some f =>
    if buf.faultOnRead then (-EFAULT, [])
    else if buf.uversion ≠ FS_QSTATV_VERSION1 then (-EINVAL, [])
    else
      let r := f buf.uversion
      if r = 0 then
        (if buf.faultOnWrite then -EFAULT else 0, [Ev.cap CapName.getXstatev, Ev.uwrite])
      else (r, [Ev.cap CapName.getXstatev])

def quota_setxquota (env : Env) (q : QCop) (ty id : Nat) (buf : UserBuf) : Int × List Ev :=
  if buf.faultOnRead then (-EFAULT, [])
  else
    match q.set_dqblk with
    | none => (-ENOSYS, [])
    | some f =>
      if ¬ env.qid_valid ty id then (-EINVAL, [])
      else (f ty id buf.ufsdq, [Ev.cap CapName.setDqblk])

def quota_getxquota (env : Env) (q : QCop) (ty id : Nat) (buf : UserBuf) : Int × List Ev :=
  match q.get_dqblk with
  | none => (-ENOSYS, [])
  | some f =>
    if ¬ env.qid_valid ty id then (-EINVAL, [])
    else
      let r := f ty id
      if r.1 ≠ 0 then (r.1, [Ev.cap CapName.getDqblk])
      else
        (if buf.faultOnWrite then -EFAULT else 0, [Ev.cap CapName.getDqblk, Ev.uwrite])

def quota_rmxquota (sb : SB) (q : QCop) (buf : UserBuf) : Int × List Ev :=
  if buf.faultOnRead then (-EFAULT, [])
  else if ¬ sb.has_rm_xquota then (-ENOSYS, [])
  else
    match q.rm_xquota with
    | none => (-ENOSYS, [])
    | some f => (f buf.uflags, [Ev.cap CapName.rmXquota])

/-- The switch of do_quotactl, after validation and the permission check. -/
def quotactl_dispatch (env : Env) (sb : SB) (q : QCop) (ty cmds id : Nat)
    (buf : UserBuf) (upath : Except Int Unit) : Int × List Ev :=
  if cmds = Q_QUOTAON then quota_quotaon q ty id upath
  else if cmds = Q_QUOTAOFF then
    match q.quota_off with
    | none => (-ENOSYS, [])
    | some f => (f ty, [Ev.cap CapName.quotaOff])
  else if cmds = Q_GETFMT then quota_getfmt sb ty buf
  else if cmds = Q_GETINFO then quota_getinfo q ty buf
  else if cmds = Q_SETINFO then quota_setinfo q ty buf
  else if cmds = Q_GETQUOTA then quota_getquota env q ty id buf
  else if cmds = Q_SETQUOTA then quota_setquota env q ty id buf
  else if cmds = Q_SYNC then
    match q.quota_sync with
    | none => (-ENOSYS, [])
    | some f => (f ty, [Ev.cap CapName.quotaSyncOp])
  else if cmds = Q_XQUOTAON ∨ cmds = Q_XQUOTAOFF then quota_setxstate q cmds buf
  else if cmds = Q_XQUOTARM then quota_rmxquota sb q buf
  else if cmds = Q_XGETQSTAT then quota_getxstate q buf
  else if cmds = Q_XGETQSTATV then quota_getxstatev q buf
  else if cmds = Q_XSETQLIM then quota_setxquota env q ty id buf
  else if cmds = Q_XGETQUOTA then quota_getxquota env q ty id buf
  else if cmds = Q_XQUOTASYNC then
    if sb.rdonly then (-EROFS, []) else (0, [])
  else (-EINVAL, [])

/-- do_quotactl: class-index validation against the family bound, presence
of the capability table, the permission check (a negative result returns
early), then the command switch. -/
def do_quotactl (env : Env) (sb : SB) (ty cmds id : Nat) (buf : UserBuf)
    (upath : Except Int Unit) : Int × List Ev :=
  if (if XQM_COMMAND cmds then XQM_MAXQUOTAS else MAXQUOTAS) ≤ ty then (-EINVAL, [])
  else
    match sb.qcop with
    | none => (-ENOSYS, [])
    | some q =>
      let pr := check_quotactl_permission env ty cmds id
      if pr.1 < 0 then pr
      else
        let br := quotactl_dispatch env sb q ty cmds id buf upath
        (br.1, pr.2 ++ br.2)

/-- quota_sync_one: a superblock is synced only when it exposes a
capability table with the sync operation. -/
def hasQuotaSync (sb : SB) : Bool :=
  match sb.qcop with
  | some q => q.quota_sync.isSome
  | none => false

/-- The broadcast events of iterate_supers(quota_sync_one): one sync call
per superblock exposing the capability, in mount-list order (the position
in the list identifies the superblock). -/
def syncEvents : List SB → Nat → Nat → List Ev
  | [], _, _ => []
  | sb :: rest, i, ty =>
    (if hasQuotaSync sb then [Ev.syncCap i ty] else []) ++ syncEvents rest (i + 1) ty

/-- quota_sync_all: validate the class, consult the hook once globally,
then iterate every superblock, ignoring per-superblock results. -/
def quota_sync_all (env : Env) (supers : List SB) (ty : Nat) : Int × List Ev :=
  if MAXQUOTAS ≤ ty then (-EINVAL, [])
  else
    let r := env.sec Q_SYNC ty 0
    if r = 0 then (r, Ev.sec Q_SYNC ty 0 :: syncEvents supers 0 ty)
    else (r, [Ev.sec Q_SYNC ty 0])

/-- The primary (non-compat) body of the quotactl syscall: no target path
is valid only for Q_SYNC (broadcast); otherwise the resolved superblock is
handed to do_quotactl.  Resolution itself (quotactl_block) is an external
collaborator, so its outcome is a parameter. -/
def quotactl_primary (env : Env) (supers : List SB) (cmds ty : Nat)
    (special : Option (Except Int SB)) (id : Nat) (buf : UserBuf)
    (upath : Except Int Unit) : Int × List Ev :=
  match special with
  | none => if cmds = Q_SYNC then quota_sync_all env supers ty else (-ENODEV, [])
  | some sbRes =>
    match sbRes with
    | Except.error e => (e, [])
    | Except.ok sb => do_quotactl env sb ty cmds id buf upath

/-- Resolution of the special argument inside the shim: a null pointer
makes getname fault before the mount lookup. -/
def compatResolve (special : Option (Except Int SB)) : Except Int SB :=
  match special with
  | none => Except.error (-EFAULT)
  | some r => r

/-- compat_quotactl: the compatibility shim.  The enable, disable and sync
words delegate to the primary syscall path; the direct words resolve the
superblock themselves and check permission for the Q_GETQUOTA opcode.
Where the source calls through s_qcop without a null check (it would
dereference a null pointer), the model returns -ENOSYS; no claim rests on
those branches. -/
def compat_quotactl (env : Env) (supers : List SB) (cmds ty : Nat)
    (special : Option (Except Int SB)) (id : Nat) (buf : UserBuf)
    (upath : Except Int Unit) : Int × List Ev :=
  if cmds = QC_QUOTAON then quotactl_primary env supers Q_QUOTAON ty special id buf upath
  else if cmds = QC_QUOTAOFF then quotactl_primary env supers Q_QUOTAOFF ty special id buf upath
  else if cmds = QC_SYNC then quotactl_primary env supers Q_SYNC ty special id buf upath
  else if cmds = QC_GETQUOTA then
    match compatResolve special with
    | Except.error e => (e, [])
    | Except.ok sb =>
      let pr := check_quotactl_permission env ty Q_GETQUOTA id
      if pr.1 ≠ 0 then pr
      else if ¬ env.qid_valid ty id then (-EINVAL, pr.2)
      else
        match sb.qcop with
        | none => (-ENOSYS, pr.2)
        | some q =>
          match q.get_dqblk with
          | none => (-ENOSYS, pr.2)
          | some f =>
            let r := f ty id
            if r.1 ≠ 0 then (r.1, pr.2 ++ [Ev.cap CapName.getDqblk])
            else if buf.faultOnWrite then (-EFAULT, pr.2 ++ [Ev.cap CapName.getDqblk, Ev.uwrite])
            else (0, pr.2 ++ [Ev.cap CapName.getDqblk, Ev.uwrite])
  else if cmds = QC_SETQUOTA ∨ cmds = QC_SETUSE ∨ cmds = QC_SETQLIM then
    match compatResolve special with
    | Except.error e => (e, [])
    | Except.ok sb =>
      let pr := check_quotactl_permission env ty Q_GETQUOTA id
      if pr.1 ≠ 0 then pr
      else if buf.faultOnRead then (-EFAULT, pr.2)
      else if ¬ env.qid_valid ty id then (-EINVAL, pr.2)
      else
        let idq : IfDqblk :=
          { dqb_bhardlimit := buf.ucdqblk.dqb_bhardlimit,
            dqb_bsoftlimit := buf.ucdqblk.dqb_bsoftlimit,
            dqb_curspace := buf.ucdqblk.dqb_curspace,
            dqb_ihardlimit := buf.ucdqblk.dqb_ihardlimit,
            dqb_isoftlimit := buf.ucdqblk.dqb_isoftlimit,
            dqb_curinodes := buf.ucdqblk.dqb_curinodes,
            -- the source leaves the two timer fields unset (stack values);
            -- the derived field mask never selects the timer bits here
            dqb_btime := 0,
            dqb_itime := 0,
            dqb_valid :=
              (if cmds = QC_SETQUOTA ∨ cmds = QC_SETQLIM then QIF_LIMITS else 0) |||
              (if cmds = QC_SETQUOTA ∨ cmds = QC_SETUSE then QIF_USAGE else 0) }
        let fdq := copy_from_if_dqblk idq
        match sb.qcop with
        | none => (-ENOSYS, pr.2)
        | some q =>
          match q.set_dqblk with
          | none => (-ENOSYS, pr.2)
          | some f => (f ty id fdq, pr.2 ++ [Ev.cap CapName.setDqblk])
  else if cmds = QC_GETINFO then
    match compatResolve special with
    | Except.error e => (e, [])
    | Except.ok sb =>
      let pr := check_quotactl_permission env ty Q_GETQUOTA id
      if pr.1 ≠ 0 then pr
      else
        match sb.qcop with
        | none => (-ENOSYS, pr.2)
        | some q =>
          match q.get_info with
          | none => (-ENOSYS, pr.2)
          | some f =>
            let r := f ty
            if r.1 ≠ 0 then (r.1, pr.2 ++ [Ev.cap CapName.getInfo])
            else if buf.faultOnWrite then (-EFAULT, pr.2 ++ [Ev.cap CapName.getInfo, Ev.uwrite])
            else (0, pr.2 ++ [Ev.cap CapName.getInfo, Ev.uwrite])
  else if cmds = QC_SETINFO ∨ cmds = QC_SETGRACE ∨ cmds = QC_SETFLAGS then
    match compatResolve special with
    | Except.error e => (e, [])
    | Except.ok sb =>
      let pr := check_quotactl_permission env ty Q_GETQUOTA id
      if pr.1 ≠ 0 then pr
      else if buf.faultOnRead then (-EFAULT, pr.2)
      else
        let iinf : IfDqinfo :=
          { dqi_bgrace := buf.ucdqinfo.dqi_bgrace,
            dqi_igrace := buf.ucdqinfo.dqi_igrace,
            dqi_flags := buf.ucdqinfo.dqi_flags,
            dqi_valid :=
              (if cmds = QC_SETINFO ∨ cmds = QC_SETGRACE then IIF_BGRACE ||| IIF_IGRACE else 0) |||
              (if cmds = QC_SETINFO ∨ cmds = QC_SETFLAGS then IIF_FLAGS else 0) }
        match sb.qcop with
        | none => (-ENOSYS, pr.2)
        | some q =>
          match q.set_info with
          | none => (-ENOSYS, pr.2)
          | some f => (f ty iinf, pr.2 ++ [Ev.cap CapName.setInfo])
  else if cmds = QC_GETSTATS then
    (if buf.faultOnWrite then -EFAULT else 0, [Ev.uwrite])
  else (-ENOSYS, [])

/-- The quotactl syscall entry: unpack the command word, route the compat
range to the shim, the rest to the primary path. -/
def sys_quotactl (env : Env) (supers : List SB) (cmd : Nat)
    (special : Option (Except Int SB)) (id : Nat) (buf : UserBuf)
    (upath : Except Int Unit) : Int × List Ev :=
  let cmds := cmd >>> SUBCMDSHIFT
  let ty := cmd &&& SUBCMDMASK
  if 0x0100 ≤ cmds ∧ cmds < 0x3000 then
    compat_quotactl env supers cmds ty special id buf upath
  else quotactl_primary env supers cmds ty special id buf upath

/-- Specification-side mapping table of the data-model invariant: the
extended field mask derived from the six basic validity bits, stated over
single bits independently of the implementation. -/
def specFieldMaskOfValid (valid : Nat) : Nat :=
  (if valid.testBit 0 then FS_DQ_BSOFT + FS_DQ_BHARD else 0) +
  (if valid.testBit 1 then FS_DQ_BCOUNT else 0) +
  (if valid.testBit 2 then FS_DQ_ISOFT + FS_DQ_IHARD else 0) +
  (if valid.testBit 3 then FS_DQ_ICOUNT else 0) +
  (if valid.testBit 4 then FS_DQ_BTIMER else 0) +
  (if valid.testBit 5 then FS_DQ_ITIMER else 0)

/-- Events that are consultations of the security hook. -/
def isSecEv : Ev → Bool
  | Ev.sec _ _ _ => true
  | _ => false

/-- An all-zero extended record, for fixtures. -/
def zeroFdq : FsDiskQuota := ⟨0, 0, 0, 0, 0, 0, 0, 0, 0⟩

def zeroIdq : IfDqblk := ⟨0, 0, 0, 0, 0, 0, 0, 0, 0⟩

def zeroInfo : IfDqinfo := ⟨0, 0, 0, 0⟩

def zeroCdq : CompatDqblk := ⟨0, 0, 0, 0, 0, 0, 0, 0⟩

def zeroCinf : CompatDqinfo := ⟨0, 0, 0⟩

/-- A fault-free user buffer decoding to all-zero records. -/
def bufZero : UserBuf :=
  { faultOnRead := false, faultOnWrite := false, udqblk := zeroIdq,
    udqinfo := zeroInfo, ufsdq := zeroFdq, uflags := 0, uversion := 0,
    ucdqblk := zeroCdq, ucdqinfo := zeroCinf }

/-- A capability set exposing every operation, each returning success. -/
def qcopFull : QCop :=
  { quota_on := some fun _ _ => 0,
    quota_on_meta := some fun _ _ => 0,
    quota_off := some fun _ => 0,
    get_info := some fun _ => (0, zeroInfo),
    set_info := some fun _ _ => 0,
    get_dqblk := some fun _ _ => (0, zeroFdq),
    set_dqblk := some fun _ _ _ => 0,
    quota_sync := some fun _ => 0,
    set_xstate := some fun _ _ => 0,
    get_xstate := some 0,
    get_xstatev := some fun _ => 0,
    rm_xquota := some fun _ => 0 }

/-- A read-write superblock exposing the full capability set. -/
def sbFull : SB :=
  { qcop := some qcopFull, rdonly := false, has_rm_xquota := true,
    quota_active := fun _ => true, fmt_id := fun _ => 0 }

/-- A superblock with no quota capability table at all. -/
def sbNoSync : SB :=
  { qcop := none, rdonly := false, has_rm_xquota := false,
    quota_active := fun _ => false, fmt_id := fun _ => 0 }

/-- A policy hook that always grants. -/
def secAllow : Nat → Nat → Nat → Int := fun _ _ _ => 0

/-- A caller holding CAP_SYS_ADMIN. -/
def envAdmin : Env :=
  { cred := { euid := 0, egroups := [], capSysAdmin := true },
    sec := secAllow, qid_valid := fun _ _ => true }

/-- An unprivileged caller with effective uid 42 and group 7. -/
def envUser : Env :=
  { cred := { euid := 42, egroups := [7], capSysAdmin := false },
    sec := secAllow, qid_valid := fun _ _ => true }

/-- A two-element mount list: one superblock with the sync capability, one
without any capability table. -/
def supersW : List SB := [sbFull, sbNoSync]

/-! Shared helper lemmas (not themselves claim theorems). -/

theorem check_eq_of_grants (env : Env) (ty cmds id : Nat)
    (h : builtinGrants env ty cmds id = true) :
    check_quotactl_permission env ty cmds id =
      (env.sec cmds ty id, [Ev.sec cmds ty id]) := by
  unfold check_quotactl_permission
  unfold builtinGrants at h
  cases h1 : unprivileged_cmd cmds <;>
    cases h2 : (cmds == Q_GETQUOTA || cmds == Q_XGETQUOTA) && selfservice env ty id <;>
      cases h3 : env.cred.capSysAdmin <;>
        simp [h1, h2, h3] at h ⊢

theorem check_eq_of_denies (env : Env) (ty cmds id : Nat)
    (h : builtinGrants env ty cmds id = false) :
    check_quotactl_permission env ty cmds id = (-EPERM, []) := by
  unfold check_quotactl_permission
  unfold builtinGrants at h
  cases h1 : unprivileged_cmd cmds <;>
    cases h2 : (cmds == Q_GETQUOTA || cmds == Q_XGETQUOTA) && selfservice env ty id <;>
      cases h3 : env.cred.capSysAdmin <;>
        simp [h1, h2, h3] at h ⊢

theorem selfservice_iff (env : Env) (ty id : Nat) :
    selfservice env ty id = true ↔
      ((ty = USRQUOTA ∧ id = env.cred.euid) ∨
        (ty = GRPQUOTA ∧ id ∈ env.cred.egroups)) := by
  simp [selfservice, List.contains, USRQUOTA, GRPQUOTA]

theorem and_two_pow_ne_zero_iff (v k : Nat) :
    (v &&& 2 ^ k ≠ 0) ↔ v.testBit k = true := by
  rw [Nat.and_two_pow]
  cases h : v.testBit k <;> simp [h]

/-- C1: evaluating the compatibility shim at a failing input.  An
unprivileged caller whose effective uid equals the queried identity is
denied by the primary permission rule for the set-record opcode (both in
the permission check itself and through do_quotactl), yet the shim, which
checks every direct legacy command against the get-record opcode, grants
the legacy set-limits command and invokes the set-record capability. -/
theorem compat_set_uses_get_permission :
    (check_quotactl_permission envUser USRQUOTA Q_SETQUOTA 42).1 = -EPERM ∧
    (do_quotactl envUser sbFull USRQUOTA Q_SETQUOTA 42 bufZero (Except.ok ())).1 = -EPERM ∧
    compat_quotactl envUser [] QC_SETQLIM USRQUOTA (some (Except.ok sbFull)) 42 bufZero
        (Except.ok ()) =
      (0, [Ev.sec Q_GETQUOTA USRQUOTA 42, Ev.cap CapName.setDqblk]) := by
  refine ⟨by decide, by decide, by decide⟩

/-- C3 counterexample: for an unprivileged caller issuing set-record, the
built-in privilege decision denies and the function returns PermissionDenied
with an empty trace, so the security hook is not consulted on this path,
refuting that the hook is always consulted regardless of the built-in
decision. -/
theorem hook_not_consulted_on_builtin_denial :
    check_quotactl_permission envUser USRQUOTA Q_SETQUOTA 9 = (-EPERM, []) := by
  decide

/-- C3 (amended): the security hook is consulted exactly when the built-in
privilege decision grants; in that case the overall result is the hook
result, so a hook denial is terminal; when the built-in decision denies,
PermissionDenied is returned without consulting the hook. -/
theorem hook_consulted_iff_builtin_grants (env : Env) (ty cmds id : Nat) :
    (builtinGrants env ty cmds id = true →
      check_quotactl_permission env ty cmds id =
        (env.sec cmds ty id, [Ev.sec cmds ty id]) ∧
      (env.sec cmds ty id ≠ 0 →
        (check_quotactl_permission env ty cmds id).1 ≠ 0)) ∧
    (builtinGrants env ty cmds id = false →
      check_quotactl_permission env ty cmds id = (-EPERM, [])) := by
  constructor
  · intro h
    refine ⟨check_eq_of_grants env ty cmds id h, ?_⟩
    intro hs
    rw [check_eq_of_grants env ty cmds id h]
    exact hs
  · exact check_eq_of_denies env ty cmds id

theorem hook_consulted_iff_builtin_grants_witness :
    check_quotactl_permission envAdmin USRQUOTA Q_SETQUOTA 5 =
      (envAdmin.sec Q_SETQUOTA USRQUOTA 5, [Ev.sec Q_SETQUOTA USRQUOTA 5]) ∧
    check_quotactl_permission envUser USRQUOTA Q_SETQUOTA 5 = (-EPERM, []) :=
  ⟨((hook_consulted_iff_builtin_grants envAdmin USRQUOTA Q_SETQUOTA 5).1 (by decide)).1,
    (hook_consulted_iff_builtin_grants envUser USRQUOTA Q_SETQUOTA 5).2 (by decide)⟩

/-- C4: composing the basic-to-extended translation with the
extended-to-basic translation preserves all eight numeric fields and
forces the validity mask to QIF_ALL, whatever the original mask was. -/
theorem dqblk_roundtrip_fields_and_mask (r : IfDqblk) :
    (copy_to_if_dqblk (copy_from_if_dqblk r)).dqb_bhardlimit = r.dqb_bhardlimit ∧
    (copy_to_if_dqblk (copy_from_if_dqblk r)).dqb_bsoftlimit = r.dqb_bsoftlimit ∧
    (copy_to_if_dqblk (copy_from_if_dqblk r)).dqb_curspace = r.dqb_curspace ∧
    (copy_to_if_dqblk (copy_from_if_dqblk r)).dqb_ihardlimit = r.dqb_ihardlimit ∧
    (copy_to_if_dqblk (copy_from_if_dqblk r)).dqb_isoftlimit = r.dqb_isoftlimit ∧
    (copy_to_if_dqblk (copy_from_if_dqblk r)).dqb_curinodes = r.dqb_curinodes ∧
    (copy_to_if_dqblk (copy_from_if_dqblk r)).dqb_btime = r.dqb_btime ∧
    (copy_to_if_dqblk (copy_from_if_dqblk r)).dqb_itime = r.dqb_itime ∧
    (copy_to_if_dqblk (copy_from_if_dqblk r)).dqb_valid = QIF_ALL :=
  ⟨rfl, rfl, rfl, rfl, rfl, rfl, rfl, rfl, rfl⟩

/-- C7: a versioned extended-state request whose version tag is not the
recognized version returns InvalidArgument with an empty trace: the
capability is not invoked and nothing is written to the user buffer. -/
theorem getxstatev_unknown_version_einval (q : QCop) (buf : UserBuf)
    (hcap : q.get_xstatev.isSome = true)
    (hrd : buf.faultOnRead = false)
    (hv : buf.uversion ≠ FS_QSTATV_VERSION1) :
    quota_getxstatev q buf = (-EINVAL, []) := by
  unfold quota_getxstatev
  rcases hq : q.get_xstatev with _ | f
  · rw [hq] at hcap
    simp at hcap
  · simp [hrd, hv]

theorem getxstatev_unknown_version_einval_witness :
    quota_getxstatev qcopFull bufZero = (-EINVAL, []) :=
  getxstatev_unknown_version_einval qcopFull bufZero rfl rfl (by decide)

/-- C10: quota-on behavior: with neither enable operation the result is
NotSupported; with the metadata-based enable present that operation is
invoked and the path argument is ignored entirely, so a path-resolution
failure is not returned; only with the metadata-based enable absent is a
path-resolution failure surfaced as the result. -/
theorem quotaon_meta_ignores_path (q : QCop) (ty id : Nat) :
    (q.quota_on = none → q.quota_on_meta = none →
      ∀ upath, quota_quotaon q ty id upath = (-ENOSYS, [])) ∧
    (∀ f, q.quota_on_meta = some f →
      ∀ upath, quota_quotaon q ty id upath = (f ty id, [Ev.cap CapName.quotaOnMeta])) ∧
    (q.quota_on_meta = none → ∀ g, q.quota_on = some g →
      ∀ e, quota_quotaon q ty id (Except.error e) = (e, [])) := by
  refine ⟨?_, ?_, ?_⟩
  · intro h1 h2 upath
    unfold quota_quotaon
    simp [h1, h2]
  · intro f hf upath
    unfold quota_quotaon
    simp [hf]
  · intro h1 g hg e
    unfold quota_quotaon
    simp [h1, hg]

theorem quotaon_meta_ignores_path_witness :
    quota_quotaon qcopFull 0 0 (Except.error (-ENODEV)) =
      (0, [Ev.cap CapName.quotaOnMeta]) :=
  (quotaon_meta_ignores_path qcopFull 0 0).2.1 (fun _ _ => 0) rfl
    (Except.error (-ENODEV))

/-- C5: the field mask computed by the basic-to-extended translation is
exactly the specification mapping of the basic validity bits, and no bit
outside the eight field bits is ever set. -/
theorem fieldmask_matches_spec_mapping (r : IfDqblk) :
    (copy_from_if_dqblk r).d_fieldmask = specFieldMaskOfValid r.dqb_valid ∧
    (copy_from_if_dqblk r).d_fieldmask < 256 := by
  have e0 : (r.dqb_valid &&& QIF_BLIMITS ≠ 0) ↔ r.dqb_valid.testBit 0 = true := by
    simp [QIF_BLIMITS]
  have e1 : (r.dqb_valid &&& QIF_SPACE ≠ 0) ↔ r.dqb_valid.testBit 1 = true := by
    have h := and_two_pow_ne_zero_iff r.dqb_valid 1
    norm_num at h
    simpa [QIF_SPACE] using h
  have e2 : (r.dqb_valid &&& QIF_ILIMITS ≠ 0) ↔ r.dqb_valid.testBit 2 = true := by
    have h := and_two_pow_ne_zero_iff r.dqb_valid 2
    norm_num at h
    simpa [QIF_ILIMITS] using h
  have e3 : (r.dqb_valid &&& QIF_INODES ≠ 0) ↔ r.dqb_valid.testBit 3 = true := by
    have h := and_two_pow_ne_zero_iff r.dqb_valid 3
    norm_num at h
    simpa [QIF_INODES] using h
  have e4 : (r.dqb_valid &&& QIF_BTIME ≠ 0) ↔ r.dqb_valid.testBit 4 = true := by
    have h := and_two_pow_ne_zero_iff r.dqb_valid 4
    norm_num at h
    simpa [QIF_BTIME] using h
  have e5 : (r.dqb_valid &&& QIF_ITIME ≠ 0) ↔ r.dqb_valid.testBit 5 = true := by
    have h := and_two_pow_ne_zero_iff r.dqb_valid 5
    norm_num at h
    simpa [QIF_ITIME] using h
  simp only [copy_from_if_dqblk, specFieldMaskOfValid]
  simp only [← e0, ← e1, ← e2, ← e3, ← e4, ← e5]
  by_cases h0 : r.dqb_valid &&& QIF_BLIMITS ≠ 0 <;>
    by_cases h1 : r.dqb_valid &&& QIF_SPACE ≠ 0 <;>
      by_cases h2 : r.dqb_valid &&& QIF_ILIMITS ≠ 0 <;>
        by_cases h3 : r.dqb_valid &&& QIF_INODES ≠ 0 <;>
          by_cases h4 : r.dqb_valid &&& QIF_BTIME ≠ 0 <;>
            by_cases h5 : r.dqb_valid &&& QIF_ITIME ≠ 0 <;>
              simp [h0, h1, h2, h3, h4, h5] <;> decide

/-- C2: without the administration capability, the permission check on the
get-record opcodes succeeds exactly on the callers own effective uid (user
class) or one of its effective groups (group class), stated under a policy
hook that grants; any other class and identity combination yields
PermissionDenied unconditionally (without reaching the hook). -/
theorem getquota_selfservice_permission (env : Env) (ty cmds id : Nat)
    (hcap : env.cred.capSysAdmin = false)
    (hcmd : cmds = Q_GETQUOTA ∨ cmds = Q_XGETQUOTA) :
    (env.sec cmds ty id = 0 →
      ((check_quotactl_permission env ty cmds id).1 = 0 ↔
        ((ty = USRQUOTA ∧ id = env.cred.euid) ∨
          (ty = GRPQUOTA ∧ id ∈ env.cred.egroups)))) ∧
    (¬ ((ty = USRQUOTA ∧ id = env.cred.euid) ∨
        (ty = GRPQUOTA ∧ id ∈ env.cred.egroups)) →
      (check_quotactl_permission env ty cmds id).1 = -EPERM) := by
  have hup : unprivileged_cmd cmds = false := by
    rcases hcmd with h | h <;> subst h <;> decide
  by_cases hss : selfservice env ty id = true
  · have hmatch := (selfservice_iff env ty id).mp hss
    have hchk : check_quotactl_permission env ty cmds id =
        (env.sec cmds ty id, [Ev.sec cmds ty id]) := by
      unfold check_quotactl_permission
      rcases hcmd with h | h <;> subst h <;> simp [hup, hss]
    constructor
    · intro hs
      rw [hchk]
      simp [hs, hmatch]
    · intro hnot
      exact absurd hmatch hnot
  · have hssf : selfservice env ty id = false := by
      simp at hss
      exact hss
    have hmatch : ¬ ((ty = USRQUOTA ∧ id = env.cred.euid) ∨
        (ty = GRPQUOTA ∧ id ∈ env.cred.egroups)) := by
      rw [← selfservice_iff env ty id]
      simp [hssf]
    have hchk : check_quotactl_permission env ty cmds id = (-EPERM, []) := by
      unfold check_quotactl_permission
      rcases hcmd with h | h <;> subst h <;> simp [hup, hssf, hcap]
    constructor
    · intro hs
      rw [hchk]
      simp [hmatch, EPERM]
    · intro _
      rw [hchk]

theorem getquota_selfservice_permission_witness :
    (check_quotactl_permission envUser USRQUOTA Q_GETQUOTA 42).1 = 0 ∧
    (check_quotactl_permission envUser USRQUOTA Q_GETQUOTA 41).1 = -EPERM := by
  constructor
  · exact ((getquota_selfservice_permission envUser USRQUOTA Q_GETQUOTA 42 rfl
      (Or.inl rfl)).1 rfl).mpr (Or.inl ⟨rfl, rfl⟩)
  · exact (getquota_selfservice_permission envUser USRQUOTA Q_GETQUOTA 41 rfl
      (Or.inl rfl)).2 (by decide)

theorem do_quotactl_consults_check (env : Env) (sb : SB) (q : QCop)
    (ty cmds id : Nat) (buf : UserBuf) (upath : Except Int Unit)
    (hty : ty < (if XQM_COMMAND cmds then XQM_MAXQUOTAS else MAXQUOTAS))
    (hq : sb.qcop = some q)
    (hg : builtinGrants env ty cmds id = true) :
    Ev.sec cmds ty id ∈ (do_quotactl env sb ty cmds id buf upath).2 := by
  have hnb : ¬ ((if XQM_COMMAND cmds then XQM_MAXQUOTAS else MAXQUOTAS) ≤ ty) :=
    Nat.not_le.mpr hty
  simp only [do_quotactl, hq]
  rw [if_neg hnb]
  rw [check_eq_of_grants env ty cmds id hg]
  dsimp only
  by_cases hs : env.sec cmds ty id < 0 <;> simp [hs]

/-- C6: the dispatcher rejects a class index at or above the family bound
(the XQM bound for XQM-family opcodes, the basic bound otherwise) with
InvalidArgument and an empty trace, so before any hook consultation or
capability call; the named XQM opcodes are exactly those the family test
classifies as extended, the basic opcodes are not; and at the bound minus
one the validation passes: the permission check is reached (its hook event
appears in the trace) for every opcode. -/
theorem do_quotactl_class_validation :
    (∀ env sb ty cmds id buf upath,
      (if XQM_COMMAND cmds then XQM_MAXQUOTAS else MAXQUOTAS) ≤ ty →
      do_quotactl env sb ty cmds id buf upath = (-EINVAL, [])) ∧
    (∀ c, (c = Q_XSETQLIM ∨ c = Q_XGETQUOTA ∨ c = Q_XQUOTAON ∨ c = Q_XQUOTAOFF ∨
        c = Q_XGETQSTAT ∨ c = Q_XGETQSTATV ∨ c = Q_XQUOTARM ∨ c = Q_XQUOTASYNC) →
      XQM_COMMAND c = true) ∧
    (∀ c, (c = Q_SYNC ∨ c = Q_QUOTAON ∨ c = Q_QUOTAOFF ∨ c = Q_GETFMT ∨
        c = Q_GETINFO ∨ c = Q_SETINFO ∨ c = Q_GETQUOTA ∨ c = Q_SETQUOTA) →
      XQM_COMMAND c = false) ∧
    (∀ cmds id buf upath,
      Ev.sec cmds ((if XQM_COMMAND cmds then XQM_MAXQUOTAS else MAXQUOTAS) - 1) id ∈
        (do_quotactl envAdmin sbFull
          ((if XQM_COMMAND cmds then XQM_MAXQUOTAS else MAXQUOTAS) - 1) cmds id buf
          upath).2) := by
  refine ⟨?_, ?_, ?_, ?_⟩
  · intro env sb ty cmds id buf upath h
    unfold do_quotactl
    rw [if_pos h]
  · intro c h
    rcases h with h | h | h | h | h | h | h | h <;> subst h <;> decide
  · intro c h
    rcases h with h | h | h | h | h | h | h | h <;> subst h <;> decide
  · intro cmds id buf upath
    apply do_quotactl_consults_check
    · cases hx : XQM_COMMAND cmds <;> simp [hx, XQM_MAXQUOTAS, MAXQUOTAS]
    · rfl
    · simp [builtinGrants, envAdmin]

theorem do_quotactl_class_validation_witness :
    do_quotactl envUser sbFull 2 Q_GETQUOTA 0 bufZero (Except.ok ()) = (-EINVAL, []) ∧
    Ev.sec Q_SYNC 1 0 ∈
      (do_quotactl envAdmin sbFull 1 Q_SYNC 0 bufZero (Except.ok ())).2 := by
  constructor
  · exact do_quotactl_class_validation.1 envUser sbFull 2 Q_GETQUOTA 0 bufZero
      (Except.ok ()) (by decide)
  · exact do_quotactl_class_validation.2.2.2 Q_SYNC 0 bufZero (Except.ok ())

theorem syncEvents_no_sec (l : List SB) (k ty : Nat) :
    (syncEvents l k ty).filter isSecEv = [] := by
  induction l generalizing k with
  | nil => rfl
  | cons sb rest ih =>
    simp only [syncEvents, List.filter_append, ih]
    cases h : hasQuotaSync sb <;> simp [isSecEv]

theorem syncEvents_mem (l : List SB) (k i ty : Nat) :
    Ev.syncCap i ty ∈ syncEvents l k ty ↔
      ∃ j, ∃ hj : j < l.length, i = k + j ∧ hasQuotaSync (l.get ⟨j, hj⟩) = true := by
  induction l generalizing k with
  | nil => simp [syncEvents]
  | cons sb rest ih =>
    constructor
    · intro h
      simp only [syncEvents] at h
      rcases List.mem_append.mp h with h1 | h1
      · cases hs : hasQuotaSync sb with
        | false =>
          rw [hs] at h1
          simp at h1
        | true =>
          rw [hs] at h1
          simp at h1
          exact ⟨0, by simp, by omega, by simp [hs]⟩
      · rcases (ih (k + 1)).mp h1 with ⟨j, hj, hik, hqs⟩
        exact ⟨j + 1, by simpa using Nat.succ_lt_succ hj, by omega, by simpa using hqs⟩
    · rintro ⟨j, hj, hik, hqs⟩
      simp only [syncEvents, List.mem_append]
      cases j with
      | zero =>
        left
        have hik2 : i = k := by omega
        subst hik2
        simp only [List.get] at hqs
        simp [hqs]
      | succ j2 =>
        right
        apply (ih (k + 1)).mpr
        refine ⟨j2, ?_, by omega, ?_⟩
        · exact Nat.lt_of_succ_lt_succ (by simpa using hj)
        · simpa using hqs

/-- C8: broadcast sync: an out-of-range class yields InvalidArgument with
no hook consultation and no filesystem visited; in range, the hook is
consulted exactly once globally; a hook denial returns that denial with no
filesystem visited; once the hook grants the result is success whatever
the per-filesystem sync operations return, and the sync capability is
invoked exactly on the mounted filesystems that expose it. -/
theorem quota_sync_all_broadcast (env : Env) (supers : List SB) (ty : Nat) :
    (MAXQUOTAS ≤ ty → quota_sync_all env supers ty = (-EINVAL, [])) ∧
    (ty < MAXQUOTAS →
      ((quota_sync_all env supers ty).2.filter isSecEv = [Ev.sec Q_SYNC ty 0]) ∧
      (env.sec Q_SYNC ty 0 ≠ 0 →
        quota_sync_all env supers ty = (env.sec Q_SYNC ty 0, [Ev.sec Q_SYNC ty 0])) ∧
      (env.sec Q_SYNC ty 0 = 0 →
        (quota_sync_all env supers ty).1 = 0 ∧
        ∀ i, ∀ hi : i < supers.length,
          (Ev.syncCap i ty ∈ (quota_sync_all env supers ty).2 ↔
            hasQuotaSync (supers.get ⟨i, hi⟩) = true))) := by
  constructor
  · intro h
    unfold quota_sync_all
    rw [if_pos h]
  · intro h
    have hnb : ¬ MAXQUOTAS ≤ ty := Nat.not_le.mpr h
    have heq : quota_sync_all env supers ty =
        (if env.sec Q_SYNC ty 0 = 0 then
          (env.sec Q_SYNC ty 0, Ev.sec Q_SYNC ty 0 :: syncEvents supers 0 ty)
        else (env.sec Q_SYNC ty 0, [Ev.sec Q_SYNC ty 0])) := by
      unfold quota_sync_all
      rw [if_neg hnb]
    refine ⟨?_, ?_, ?_⟩
    · rw [heq]
      by_cases hs : env.sec Q_SYNC ty 0 = 0 <;>
        simp [hs, isSecEv, syncEvents_no_sec]
    · intro hd
      rw [heq, if_neg hd]
    · intro hs0
      rw [heq, if_pos hs0]
      refine ⟨hs0, ?_⟩
      intro i hi
      simp only [List.mem_cons]
      have hne : ¬ (Ev.syncCap i ty = Ev.sec Q_SYNC ty 0) := by
        intro hcon
        cases hcon
      rw [syncEvents_mem supers 0 i ty]
      constructor
      · intro hor
        rcases hor with hcon | ⟨j, hj, hij, hqs⟩
        · exact absurd hcon hne
        · have hji : j = i := by omega
          subst hji
          exact hqs
      · intro hqs
        exact Or.inr ⟨i, hi, by omega, hqs⟩

theorem quota_sync_all_broadcast_witness :
    (quota_sync_all envUser supersW 0).1 = 0 ∧
    (Ev.syncCap 0 0 ∈ (quota_sync_all envUser supersW 0).2 ↔
      hasQuotaSync (supersW.get ⟨0, by decide⟩) = true) := by
  have h := (quota_sync_all_broadcast envUser supersW 0).2 (by decide)
  have h4 := h.2.2 rfl
  exact ⟨h4.1, h4.2 0 (by decide)⟩

/-- C9: an extended-sync request that passed validation and the permission
check returns the read-only error on a read-only mount and success
otherwise, with the trace containing only the hook event: no capability
operation is invoked and nothing is written to the user buffer. -/
theorem xquotasync_rdonly_or_noop (env : Env) (sb : SB) (q : QCop) (ty id : Nat)
    (buf : UserBuf) (upath : Except Int Unit)
    (hq : sb.qcop = some q) (hty : ty < XQM_MAXQUOTAS)
    (hsec : 0 ≤ env.sec Q_XQUOTASYNC ty id) :
    do_quotactl env sb ty Q_XQUOTASYNC id buf upath =
      (if sb.rdonly then -EROFS else 0, [Ev.sec Q_XQUOTASYNC ty id]) := by
  have hx : XQM_COMMAND Q_XQUOTASYNC = true := by decide
  have hnb : ¬ ((if XQM_COMMAND Q_XQUOTASYNC then XQM_MAXQUOTAS else MAXQUOTAS) ≤ ty) := by
    rw [hx]
    simpa using Nat.not_le.mpr hty
  have hg : builtinGrants env ty Q_XQUOTASYNC id = true := by
    simp [builtinGrants, unprivileged_cmd]
  simp only [do_quotactl, hq]
  rw [if_neg hnb]
  rw [check_eq_of_grants env ty Q_XQUOTASYNC id hg]
  dsimp only
  have hns : ¬ (env.sec Q_XQUOTASYNC ty id < 0) := by omega
  rw [if_neg hns]
  simp only [quotactl_dispatch]
  norm_num [Q_XQUOTASYNC, Q_QUOTAON, Q_QUOTAOFF, Q_GETFMT, Q_GETINFO, Q_SETINFO,
    Q_GETQUOTA, Q_SETQUOTA, Q_SYNC, Q_XQUOTAON, Q_XQUOTAOFF, Q_XQUOTARM,
    Q_XGETQSTAT, Q_XGETQSTATV, Q_XSETQLIM, Q_XGETQUOTA]
  cases hr : sb.rdonly <;> simp [hr]

theorem xquotasync_rdonly_or_noop_witness :
    do_quotactl envUser sbFull 0 Q_XQUOTASYNC 0 bufZero (Except.ok ()) =
      (0, [Ev.sec Q_XQUOTASYNC 0 0]) := by
  have h := xquotasync_rdonly_or_noop envUser sbFull qcopFull 0 0 bufZero
    (Except.ok ()) rfl (by decide) (by decide)
  simpa using h

end Quotactl
